import Mathlib

/-!
Verification of the resource-graph synthesis core of the `catalog` module
repository: the Alicloud PostgreSQL generator (`GenerateAlicloudResources`
and its helpers) and the `k8s_manifest` generator (`Generate`,
`CompleteConfig`, `ValidateConfig`).  Go values are shallowly embedded:
Go maps become insertion-ordered association lists whose iteration order
is an explicit permutation parameter (Go randomises map iteration), Go
errors become `Except`, and Go panics become an explicit outcome.
-/

namespace Catalog

/-- Embedding of `alicloudServerlessConfig` (declared here so attribute
values can carry it). -/
structure AlicloudServerlessConfig where
  auto_pause : Bool
  switch_force : Bool
  max_capacity : Int
  min_capacity : Int
deriving DecidableEq, Repr

/-- Attribute values stored in a resource's `Attributes` / `Extensions`
maps (the shallow embedding of the Go `map[string]interface{}` values this
program actually stores: strings, integers, booleans, string lists,
string-valued maps, and the serverless-config struct list). -/
inductive AttrVal where
  | str (s : String)
  | num (n : Int)
  | boolean (b : Bool)
  | strList (l : List String)
  | smap (m : List (String × String))
  | serverless (l : List AlicloudServerlessConfig)
deriving DecidableEq, Repr

/-- Association-list lookup, embedding a Go map read `m[k]`. -/
def lookupAttr (m : List (String × AttrVal)) (k : String) : Option AttrVal :=
  match m with
  | [] => none
  | (k', v) :: rest => if k' = k then some v else lookupAttr rest k

/-- Embedding of `kusionapiv1.Resource`: id, type, attributes and
extensions. -/
structure Resource where
  id : String
  type : String
  attributes : List (String × AttrVal)
  extensions : List (String × AttrVal)
deriving DecidableEq, Repr

/-- Embedding of `module.ProviderConfig` (source, version, provider
metadata). -/
structure ProviderConfig where
  Source : String
  Version : String
  ProviderMeta : List (String × String)
deriving DecidableEq, Repr

/-- Character-list prefix test (helper for `goContains`). -/
def isPrefixOfChars : List Char → List Char → Bool
  | [], _ => true
  | _ :: _, [] => false
  | a :: as, b :: bs => a = b && isPrefixOfChars as bs

/-- Character-list infix test (helper for `goContains`). -/
def isInfixOfChars (sub : List Char) : List Char → Bool
  | [] => sub.isEmpty
  | b :: bs => isPrefixOfChars sub (b :: bs) || isInfixOfChars sub bs

/-- Embedding of Go `strings.Contains`. -/
def goContains (s sub : String) : Bool :=
  isInfixOfChars sub.toList s.toList

/-- Modelled from the spec (the framework function
`module.TerraformProviderRegion` lives outside this repository): reads the
`region` entry of the provider metadata, returning `""` when absent or not
a string. -/
def TerraformProviderRegion (cfg : ProviderConfig) : String :=
  match cfg.ProviderMeta.lookup "region" with
  | some s => s
  | none => ""

/-- Modelled from the spec (§4.2 ResourceIdentity; the framework function
`module.TerraformResourceID` lives outside this repository): a pure,
deterministic identifier built from the provider source, the resource type
and the logical name. -/
def TerraformResourceID (cfg : ProviderConfig) (resType resName : String) : String :=
  cfg.Source ++ ":" ++ resType ++ ":" ++ resName

/-- Modelled from the spec (§4.3 ReferenceBuilder; the framework function
`module.KusionPathDependency` lives outside this repository): a symbolic
forward reference "attribute `name` of the resource with id `id`". -/
def KusionPathDependency (id name : String) : String :=
  "$kusion_path." ++ id ++ "." ++ name

/-- Modelled from the spec (the framework function
`module.WrapTFResourceToKusionResource` lives outside this repository):
wraps Terraform attributes into a `Resource`, recording the provider
metadata and the Terraform resource type in the extensions. -/
def WrapTFResourceToKusionResource (cfg : ProviderConfig) (resType id : String)
    (attrs : List (String × AttrVal)) : Resource :=
  { id := id
    type := "Terraform"
    attributes := attrs
    extensions :=
      [("provider", .str (cfg.Source ++ ":" ++ cfg.Version)),
       ("providerMeta", .smap cfg.ProviderMeta),
       ("resourceType", .str resType)] }

end Catalog

namespace AlicloudPG

open Catalog

/-- Modelled from the spec (§3 ModuleConfig; the `PostgreSQL` struct is
declared in a repository file missing from `src/`): the effective module
configuration consumed by `GenerateAlicloudResources`. -/
structure PostgreSQL where
  Category : String
  Version : String
  Size : Int
  InstanceType : String
  SecurityIPs : List String
  SubnetID : String
  DatabaseName : String
  Username : String
  PrivateRouting : Bool
deriving DecidableEq, Repr

/-- Error value embedding `ErrEmptyAlicloudProviderRegion`. -/
inductive PGError where
  | emptyRegion
deriving DecidableEq, Repr

/-- Embedding of the string constants of the Alicloud generator file. -/
def alicloudDBInstance : String := "alicloud_db_instance"

def alicloudDBConnection : String := "alicloud_db_connection"

def alicloudRDSAccount : String := "alicloud_rds_account"

/-- Embedding of `defaultAlicloudProviderCfg`. -/
def defaultAlicloudProviderCfg : ProviderConfig :=
  { Source := "aliyun/alicloud", Version := "1.209.1", ProviderMeta := [] }

/-- Modelled from the spec (§4.4 step 4 predicate; `IsPublicAccessible` is
declared in a repository file missing from `src/`): the allow-list is
public when it contains the unrestricted-range marker `0.0.0.0/0`. -/
def IsPublicAccessible (securityIPs : List String) : Bool :=
  securityIPs.contains "0.0.0.0/0"

/-- Modelled from the spec (§4.4 step 2; `GenerateTFRandomPassword` is
declared in a repository file missing from `src/`): produces a
random-password resource under the `hashicorp/random` provider and
captures its deterministic id. -/
def GenerateTFRandomPassword (pg : PostgreSQL) : Resource × String :=
  let cfg : ProviderConfig :=
    { Source := "hashicorp/random", Version := "3.5.1", ProviderMeta := [] }
  let id := TerraformResourceID cfg "random_password" (pg.DatabaseName ++ "-random-password")
  (WrapTFResourceToKusionResource cfg "random_password" id
     [("length", .num 16), ("special", .boolean true)], id)

/-- Embedding of `generateAlicloudDBInstance`: builds the attributes of the
primary instance resource, augmenting them with the serverless
sub-configuration exactly when the category contains `"serverless"`. -/
def generateAlicloudDBInstance (pg : PostgreSQL) (cfg : ProviderConfig)
    (region : String) : Resource × String :=
  let baseAttrs : List (String × AttrVal) :=
    [("category", .str pg.Category),
     ("engine", .str "PostgreSQL"),
     ("engine_version", .str pg.Version),
     ("instance_storage", .num pg.Size),
     ("instance_type", .str pg.InstanceType),
     ("security_ips", .strList pg.SecurityIPs),
     ("vswitch_id", .str pg.SubnetID),
     ("instance_name", .str pg.DatabaseName)]
  let resAttrs :=
    if goContains pg.Category "serverless" then
      baseAttrs ++
        [("db_instance_storage_type", .str "cloud_essd"),
         ("instance_charge_type", .str "Serverless"),
         ("serverless_config",
          .serverless
            [{ auto_pause := false, switch_force := false,
               max_capacity := 8, min_capacity := 1 }])]
    else baseAttrs
  let id := TerraformResourceID cfg alicloudDBInstance pg.DatabaseName
  let cfg' := { cfg with ProviderMeta := [("region", region)] }
  (WrapTFResourceToKusionResource cfg' alicloudDBInstance id resAttrs, id)

/-- Embedding of `generateAlicloudDBConnection`: the public-connection
resource, with fixed port 5432 and a forward reference to the instance's
future id. -/
def generateAlicloudDBConnection (pg : PostgreSQL) (cfg : ProviderConfig)
    (region dbInstanceID : String) : Resource × String :=
  let resAttrs : List (String × AttrVal) :=
    [("instance_id", .str (KusionPathDependency dbInstanceID "id")),
     ("port", .num 5432)]
  let id := TerraformResourceID cfg alicloudDBConnection pg.DatabaseName
  let cfg' := { cfg with ProviderMeta := [("region", region)] }
  (WrapTFResourceToKusionResource cfg' alicloudDBConnection id resAttrs, id)

/-- Embedding of `generateAlicloudRDSAccount`. -/
def generateAlicloudRDSAccount (pg : PostgreSQL) (cfg : ProviderConfig)
    (region accountName randomPasswordID dbInstanceID : String) : Resource :=
  let resAttrs : List (String × AttrVal) :=
    [("account_name", .str accountName),
     ("account_password", .str (KusionPathDependency randomPasswordID "result")),
     ("account_type", .str "Super"),
     ("db_instance_id", .str (KusionPathDependency dbInstanceID "id"))]
  let id := TerraformResourceID cfg alicloudRDSAccount pg.DatabaseName
  let cfg' := { cfg with ProviderMeta := [("region", region)] }
  WrapTFResourceToKusionResource cfg' alicloudRDSAccount id resAttrs

/-- Embedding of a patcher: the environment variables injected into the
consuming workload. -/
abbrev Patcher := List (String × String)

/-- Modelled from the spec (§4.6 SecretAssembler; `GenerateDBSecret` is
declared in a repository file missing from `src/`): a Kubernetes
secret-shaped resource carrying host address, username and password, plus
the environment-variable patcher. -/
def GenerateDBSecret (pg : PostgreSQL) (hostAddress username password : String) :
    Resource × Patcher :=
  ({ id := "v1:Secret:" ++ pg.DatabaseName
     type := "Kubernetes"
     attributes :=
       [("apiVersion", .str "v1"),
        ("kind", .str "Secret"),
        ("stringData",
         .smap [("hostAddress", hostAddress),
                ("username", username),
                ("password", password)])]
     extensions := [] },
   [("KUSION_DB_HOST", hostAddress),
    ("KUSION_DB_USERNAME", username),
    ("KUSION_DB_PASSWORD", password)])

/-- Embedding of `GenerateAlicloudResources`, parameterised over the
provider config assigned at its first line and over the
`ALICLOUD_REGION` environment variable. -/
def GenerateAlicloudResourcesWith (pg : PostgreSQL) (cfg : ProviderConfig)
    (env : String) : Except PGError (List Resource × Patcher) :=
  let region0 := TerraformProviderRegion cfg
  let region := if region0 = "" then env else region0
  if region = "" then .error .emptyRegion
  else
    let (randomPasswordRes, randomPasswordID) := GenerateTFRandomPassword pg
    let (instRes, instID) := generateAlicloudDBInstance pg cfg region
    let (connRes?, connID) :=
      if IsPublicAccessible pg.SecurityIPs then
        let (r, i) := generateAlicloudDBConnection pg cfg region instID
        (some r, i)
      else (none, "")
    let acctRes := generateAlicloudRDSAccount pg cfg region pg.Username randomPasswordID instID
    let hostAddress :=
      if pg.PrivateRouting then KusionPathDependency instID "connection_string"
      else KusionPathDependency connID "connection_string"
    let password := KusionPathDependency randomPasswordID "result"
    let (dbSecret, patcher) := GenerateDBSecret pg hostAddress pg.Username password
    .ok ([randomPasswordRes, instRes] ++ connRes?.toList ++ [acctRes, dbSecret], patcher)

/-- Embedding of `GenerateAlicloudResources` proper: the provider config is
the fixed default (source line 38). -/
def GenerateAlicloudResources (pg : PostgreSQL) (env : String) :
    Except PGError (List Resource × Patcher) :=
  GenerateAlicloudResourcesWith pg defaultAlicloudProviderCfg env

end AlicloudPG

namespace K8sMod

open Catalog

/-- A decoded YAML/JSON field value of a manifest document: the generator
only reads string fields (`apiVersion`, `kind`) and one string-valued map
(`metadata`), so values are strings or string maps. -/
inductive YVal where
  | str (s : String)
  | ymap (m : List (String × String))
deriving DecidableEq, Repr

/-- One decoded manifest document: the embedding of the non-nil
`map[string]interface{}` produced by one decoder step. -/
abbrev YDoc := List (String × YVal)

/-- Converting a document value into a resource attribute value. -/
def yvalToAttr : YVal → AttrVal
  | .str s => .str s
  | .ymap m => .smap m

/-- Embedding of the read-only filesystem the generator walks: regular
files carry their already-decoded document stream (decoding internals are
out of scope per the spec), and a directory carries the regular files that
`filepath.WalkDir` visits under it, in walk order (directory entries
themselves carry no YAML/JSON extension and are skipped by `ignoreFile`,
so they are pre-flattened away). -/
structure FSys where
  files : List (String × List YDoc)
  dirs : List (String × List String)
deriving DecidableEq, Repr

/-- Embedding of the `FileExtensions` package variable. -/
def FileExtensions : List String := [".yaml", ".yml", ".json"]

/-- Helper for `fileExt`: scan the reversed path for the last `.` of the
final path element. -/
def fileExtAux : List Char → List Char → String
  | [], _ => ""
  | c :: rest, acc =>
    if c = '.' then String.mk ('.' :: acc)
    else if c = '/' then ""
    else fileExtAux rest (c :: acc)

/-- Embedding of `filepath.Ext`: the suffix beginning at the final dot of
the last path element, or `""`. -/
def fileExt (p : String) : String :=
  fileExtAux p.toList.reverse []

/-- Embedding of `strings.EqualFold` (ASCII case folding suffices for the
extension set used here). -/
def goEqualFold (a b : String) : Bool :=
  a.toList.map Char.toLower = b.toList.map Char.toLower

/-- Embedding of `ignoreFile`: a file is ignored when its extension
matches none of the recognised extensions, case-insensitively. -/
def ignoreFile (path : String) (extensions : List String) : Bool :=
  if extensions.length = 0 then false
  else !(extensions.any (fun s => goEqualFold s (fileExt path)))

/-- The accumulator `manifestYAMLFiles`: a Go `map[string][]interface{}`
embedded as an insertion-ordered association list with unique keys. -/
abbrev FileMap := List (String × List YDoc)

/-- Embedding of `manifestYAMLFiles[filePath] = append(...)` repeated for
each document of one file: appends onto the existing entry in place, or
creates a new entry at the end. -/
def updateAdd : FileMap → String → List YDoc → FileMap
  | [], k, ds => [(k, ds)]
  | (k', v) :: rest, k, ds =>
    if k' = k then (k', v ++ ds) :: rest else (k', v) :: updateAdd rest k ds

/-- Errors of the k8s_manifest generator. -/
inductive K8sGenError where
  | statError (path : String)
  | openError (path : String)
  | panicRecovered (panicMsg : String) (stack : String) (request : String)
deriving DecidableEq, Repr

/-- Embedding of `appendManifest`: opens the file, decodes its document
stream, skips empty documents, and appends the rest under the file's key.
A key is only created once a non-empty document is appended. -/
def appendManifest (fs : FSys) (path : String) (m : FileMap) :
    Except K8sGenError FileMap :=
  match fs.files.lookup path with
  | none => .error (.openError path)
  | some docs =>
    let nonEmpty := docs.filter (fun d => !(List.isEmpty d))
    .ok (if nonEmpty.isEmpty then m else updateAdd m path nonEmpty)

/-- Embedding of the per-path body of the loop at source lines 64-92:
`os.Stat`, then either a directory walk filtered by `ignoreFile` or a
direct `appendManifest`. -/
def processPath (fs : FSys) (m : FileMap) (path : String) :
    Except K8sGenError FileMap :=
  match fs.dirs.lookup path with
  | some entries =>
    entries.foldlM
      (fun acc fp =>
        if ignoreFile fp FileExtensions then .ok acc
        else appendManifest fs fp acc)
      m
  | none =>
    match fs.files.lookup path with
    | some _ => appendManifest fs path m
    | none => .error (.statError path)

/-- Embedding of the whole path loop: the merged paths are visited in the
Go map iteration order `pord` (a permutation of the merged key set chosen
by the runtime). -/
def collectFiles (fs : FSys) (pord : List String) : Except K8sGenError FileMap :=
  pord.foldlM (processPath fs) []

/-- Embedding of the per-document conversion at source lines 101-122.  The
unchecked Go type assertions panic when a field is missing or has the
wrong shape; a panic is an `.error` carrying the runtime's message. -/
def convertDoc (doc : YDoc) : Except String Resource :=
  match List.lookup "apiVersion" doc with
  | some (.str apiVersion) =>
    match List.lookup "kind" doc with
    | some (.str kind) =>
      match List.lookup "metadata" doc with
      | some (.ymap metadata) =>
        match metadata.lookup "name" with
        | some name =>
          let namespc := (metadata.lookup "namespace").getD ""
          let kusionID :=
            if namespc = "" then apiVersion ++ ":" ++ kind ++ ":" ++ name
            else apiVersion ++ ":" ++ kind ++ ":" ++ namespc ++ ":" ++ name
          .ok { id := kusionID
                type := "Kubernetes"
                attributes := doc.map (fun e => (e.1, yvalToAttr e.2))
                extensions := [] }
        | none => .error "interface conversion: metadata name is not a string"
      | _ => .error "interface conversion: metadata is not a map"
    | _ => .error "interface conversion: kind is not a string"
  | _ => .error "interface conversion: apiVersion is not a string"

/-- The documents presented to the conversion loop: the per-file groups in
the Go map iteration order `ford`, document order preserved inside each
group. -/
def docsInOrder (m : FileMap) (ford : List String) : List YDoc :=
  ford.flatMap (fun k => (List.lookup k m).getD [])

/-- Conversion of a document sequence: one resource per document, in
order; the first panic aborts. -/
def convertDocs : List YDoc → Except String (List Resource)
  | [] => .ok []
  | d :: ds =>
    match convertDoc d with
    | .error e => .error e
    | .ok r =>
      match convertDocs ds with
      | .error e => .error e
      | .ok rs => .ok (r :: rs)

/-- Embedding of the conversion loop at source lines 95-124: every
accumulated document becomes a resource; a conversion panic aborts the
loop. -/
def convertAll (m : FileMap) (ford : List String) : Except String (List Resource) :=
  convertDocs (docsInOrder m ford)

/-- Embedding of the `K8sManifest` module state: the declared paths and
the insertion-ordered key set of the `MergedPaths` Go map. -/
structure K8sManifest where
  Paths : List String
  MergedPaths : List String
deriving DecidableEq, Repr

/-- The state `main` starts the module with. -/
def initialK8sManifest : K8sManifest :=
  { Paths := [], MergedPaths := [] }

/-- Setting `MergedPaths[path] = true`: a fresh key is appended, an
existing key is left in place. -/
def mergedInsert (m : List String) (p : String) : List String :=
  if p ∈ m then m else m ++ [p]

/-- Embedding of a parsed config fragment: `none` is a nil config, `some
ps` a fragment whose `paths` field declares `ps` (decoding internals are
out of scope per the spec; claims quantify over fragments that parse). -/
abbrev ConfigFragment := Option (List String)

/-- Embedding of `CompleteConfig`: the developer fragment is unmarshalled
into the receiver (overwriting `Paths`) and its paths are set in
`MergedPaths`; the platform fragment is unmarshalled into a scratch value
and its paths are added only when not already present.  `MergedPaths` is
never cleared. -/
def CompleteConfig (k : K8sManifest) (devConfig platformConfig : ConfigFragment) :
    K8sManifest :=
  let k1 :=
    match devConfig with
    | none => k
    | some ps =>
      { Paths := ps, MergedPaths := ps.foldl mergedInsert k.MergedPaths }
  match platformConfig with
  | none => k1
  | some ps =>
    { k1 with MergedPaths := ps.foldl mergedInsert k1.MergedPaths }

/-- Embedding of `ValidateConfig`. -/
def ValidateConfig (k : K8sManifest) : Option String :=
  if k.MergedPaths.length = 0 then some "k8s manifest paths should not be empty"
  else none

/-- Embedding of `module.GeneratorRequest` (the fields this module
reads). -/
structure GeneratorRequest where
  devConfig : ConfigFragment
  platformConfig : ConfigFragment

/-- Rendering of a config fragment inside the marshalled request. -/
def showFragment : ConfigFragment → String
  | none => "null"
  | some ps => "[" ++ String.intercalate "," ps ++ "]"

/-- Embedding of `json.Marshal(request)` for the recovered-panic error. -/
def marshalRequest (req : GeneratorRequest) : String :=
  "devConfig=" ++ showFragment req.devConfig ++
    ";platformConfig=" ++ showFragment req.platformConfig

/-- The observable outcome of one `Generate` call: the updated module
state (the receiver is mutated in place in the source), the response, and
the error. -/
structure GenerateResult where
  state : K8sManifest
  response : Option (List Resource)
  err : Option K8sGenError
deriving DecidableEq, Repr

/-- Embedding of `Generate`: completes the config on the receiver, walks
the merged paths (in runtime map order `pord`), converts all accumulated
documents (groups in runtime map order `ford`), and converts any panic
into a recovered error carrying the stack and the marshalled request,
returning a nil response. -/
def Generate (k : K8sManifest) (fs : FSys) (req : GeneratorRequest)
    (pord ford : List String) (stack : String) : GenerateResult :=
  let k' := CompleteConfig k req.devConfig req.platformConfig
  match collectFiles fs pord with
  | .error e => { state := k', response := none, err := some e }
  | .ok fmap =>
    match convertAll fmap ford with
    | .error panicMsg =>
      { state := k'
        response := none
        err := some (.panicRecovered panicMsg stack (marshalRequest req)) }
    | .ok rs => { state := k', response := some rs, err := none }

end K8sMod

namespace AlicloudPG

open Catalog

/-- The resource list of a generation, `[]` on failure. -/
def generatedResources (pg : PostgreSQL) (env : String) : List Resource :=
  match GenerateAlicloudResources pg env with
  | .ok (rs, _) => rs
  | .error _ => []

/-- The host-address field of the produced secret (the last generated
resource), when the generation succeeds. -/
def generatedSecretHost (pg : PostgreSQL) (env : String) : Option String :=
  match (generatedResources pg env).getLast? with
  | some r =>
    match lookupAttr r.attributes "stringData" with
    | some (.smap m) => m.lookup "hostAddress"
    | _ => none
  | none => none

/-- The `region` recorded in the provider metadata of the primary instance
resource (the second generated resource). -/
def generatedInstanceRegionWith (pg : PostgreSQL) (cfg : ProviderConfig)
    (env : String) : Option String :=
  match GenerateAlicloudResourcesWith pg cfg env with
  | .ok (rs, _) =>
    match rs[1]? with
    | some r =>
      match lookupAttr r.extensions "providerMeta" with
      | some (.smap m) => m.lookup "region"
      | _ => none
    | none => none
  | .error _ => none

/-- A configuration whose allow-list is not public and that does not
request private routing. -/
def pgNoPub : PostgreSQL :=
  { Category := "basic", Version := "14.0", Size := 20,
    InstanceType := "pg.n2.2c.1m", SecurityIPs := ["10.0.0.0/8"],
    SubnetID := "vsw-1", DatabaseName := "testdb", Username := "admin",
    PrivateRouting := false }

/-- A configuration with a public allow-list and a serverless category. -/
def pgPub : PostgreSQL :=
  { Category := "serverless_basic", Version := "14.0", Size := 20,
    InstanceType := "pg.n2.2c.1m", SecurityIPs := ["0.0.0.0/0"],
    SubnetID := "vsw-1", DatabaseName := "testdb", Username := "admin",
    PrivateRouting := false }

/-- A configuration requesting private routing. -/
def pgPriv : PostgreSQL :=
  { Category := "basic", Version := "14.0", Size := 20,
    InstanceType := "pg.n2.2c.1m", SecurityIPs := ["192.168.0.0/16"],
    SubnetID := "vsw-1", DatabaseName := "testdb", Username := "admin",
    PrivateRouting := true }

/-- C1 (counterexample): with a non-public allow-list and private routing
off, the generation succeeds but the secret's host-address field is a
reference with the EMPTY resource id, not a reference to the id the
public-connection resource would carry — so the claim's parenthetical
("including when ... no public-connection resource was built") fails. -/
theorem hostAddress_claim_counterexample :
    generatedSecretHost pgNoPub "cn-hangzhou" =
      some (KusionPathDependency "" "connection_string") ∧
    KusionPathDependency "" "connection_string" ≠
      KusionPathDependency
        (TerraformResourceID defaultAlicloudProviderCfg alicloudDBConnection
          pgNoPub.DatabaseName) "connection_string" := by
  constructor
  · rfl
  · decide

/-- C1 (amended): for every successful generation, the secret's
host-address field is a reference to the primary instance's
connection_string when private routing is requested; otherwise it is a
reference built from the captured connection id — the public-connection
resource's connection_string when the allow-list is public, and a
reference with the empty resource id when no public-connection resource
was built. -/
theorem hostAddress_selection_amended (pg : PostgreSQL) (env : String)
    (h : env ≠ "") :
    generatedSecretHost pg env =
      some (if pg.PrivateRouting then
              KusionPathDependency
                (TerraformResourceID defaultAlicloudProviderCfg alicloudDBInstance
                  pg.DatabaseName) "connection_string"
            else if IsPublicAccessible pg.SecurityIPs then
              KusionPathDependency
                (TerraformResourceID defaultAlicloudProviderCfg alicloudDBConnection
                  pg.DatabaseName) "connection_string"
            else KusionPathDependency "" "connection_string") := by
  unfold generatedSecretHost generatedResources GenerateAlicloudResources
    GenerateAlicloudResourcesWith
  simp only [show TerraformProviderRegion defaultAlicloudProviderCfg = "" from rfl,
    if_pos rfl, if_neg h]
  cases hpriv : pg.PrivateRouting <;>
    cases hpub : IsPublicAccessible pg.SecurityIPs <;>
      simp [hpriv, hpub, h, GenerateTFRandomPassword, generateAlicloudDBInstance,
        generateAlicloudDBConnection, generateAlicloudRDSAccount,
        GenerateDBSecret, WrapTFResourceToKusionResource, lookupAttr,
        List.getLast?, List.getLast]

/-- Witness for the C1 amended theorem at a concrete non-public,
non-private configuration. -/
theorem hostAddress_selection_amended_witness :
    ("cn-hangzhou" : String) ≠ "" ∧
    generatedSecretHost pgNoPub "cn-hangzhou" =
      some (KusionPathDependency "" "connection_string") := by
  refine ⟨by decide, ?_⟩
  have h := hostAddress_selection_amended pgNoPub "cn-hangzhou" (by decide)
  simpa [pgNoPub, IsPublicAccessible] using h

/-- C5: a generated resource is the public-connection resource exactly
when its recorded Terraform resource type is `alicloud_db_connection`. -/
def isConnectionResource (r : Resource) : Prop :=
  lookupAttr r.extensions "resourceType" = some (.str alicloudDBConnection)

/-- C5: for every successful generation, an `alicloud_db_connection`
resource is present iff the allow-list satisfies the public-accessibility
predicate; when present it has fixed port 5432 and its `instance_id` is a
symbolic reference to the primary instance's `id`. -/
theorem connection_resource_iff_public (pg : PostgreSQL) (env : String)
    (h : env ≠ "") :
    ((∃ r ∈ generatedResources pg env, isConnectionResource r) ↔
      IsPublicAccessible pg.SecurityIPs = true) ∧
    (∀ r ∈ generatedResources pg env, isConnectionResource r →
      lookupAttr r.attributes "port" = some (.num 5432) ∧
      lookupAttr r.attributes "instance_id" =
        some (.str (KusionPathDependency
          (TerraformResourceID defaultAlicloudProviderCfg alicloudDBInstance
            pg.DatabaseName) "id"))) := by
  unfold generatedResources GenerateAlicloudResources GenerateAlicloudResourcesWith
  simp only [show TerraformProviderRegion defaultAlicloudProviderCfg = "" from rfl,
    if_pos rfl]
  cases hpub : IsPublicAccessible pg.SecurityIPs <;>
    simp [h, hpub, isConnectionResource, GenerateTFRandomPassword,
      generateAlicloudDBInstance, generateAlicloudDBConnection,
      generateAlicloudRDSAccount, GenerateDBSecret,
      WrapTFResourceToKusionResource, lookupAttr, alicloudDBInstance,
      alicloudDBConnection, alicloudRDSAccount]

/-- Witness for the C5 theorem at a concrete public configuration. -/
theorem connection_resource_iff_public_witness :
    ("cn-hangzhou" : String) ≠ "" ∧
    ((∃ r ∈ generatedResources pgPub "cn-hangzhou", isConnectionResource r) ↔
      IsPublicAccessible pgPub.SecurityIPs = true) := by
  exact ⟨by decide, (connection_resource_iff_public pgPub "cn-hangzhou" (by decide)).1⟩

/-- C6: generation fails with the empty-region error exactly when both
the provider-config region and the environment variable are empty; when
the provider-config region is non-empty it is the region recorded on the
primary instance resource, whatever the environment variable holds. -/
theorem region_resolution (pg : PostgreSQL) (cfg : ProviderConfig) (env : String) :
    (GenerateAlicloudResourcesWith pg cfg env = .error .emptyRegion ↔
      (TerraformProviderRegion cfg = "" ∧ env = "")) ∧
    (TerraformProviderRegion cfg ≠ "" →
      generatedInstanceRegionWith pg cfg env = some (TerraformProviderRegion cfg)) := by
  unfold generatedInstanceRegionWith GenerateAlicloudResourcesWith
  by_cases hr : TerraformProviderRegion cfg = "" <;> by_cases he : env = "" <;>
    cases hpub : IsPublicAccessible pg.SecurityIPs <;>
      simp [hr, he, hpub, GenerateTFRandomPassword, generateAlicloudDBInstance,
        generateAlicloudDBConnection, generateAlicloudRDSAccount, GenerateDBSecret,
        WrapTFResourceToKusionResource, lookupAttr]

/-- Witness for the C6 theorem: a provider config with a region set wins
over a non-empty environment variable. -/
theorem region_resolution_witness :
    TerraformProviderRegion
      { Source := "aliyun/alicloud", Version := "1.209.1",
        ProviderMeta := [("region", "cn-beijing")] } ≠ "" ∧
    generatedInstanceRegionWith pgNoPub
      { Source := "aliyun/alicloud", Version := "1.209.1",
        ProviderMeta := [("region", "cn-beijing")] } "cn-hangzhou" =
      some (TerraformProviderRegion
        { Source := "aliyun/alicloud", Version := "1.209.1",
          ProviderMeta := [("region", "cn-beijing")] }) := by
  exact ⟨by decide,
    (region_resolution pgNoPub
      { Source := "aliyun/alicloud", Version := "1.209.1",
        ProviderMeta := [("region", "cn-beijing")] } "cn-hangzhou").2 (by decide)⟩

/-- C7: for every successful generation, the primary instance resource
(the second generated resource) carries the fixed serverless
sub-configuration (auto_pause=false, switch_force=false, max_capacity=8,
min_capacity=1), the `cloud_essd` storage type and the `Serverless` charge
type exactly when the category contains `"serverless"`; otherwise no
serverless sub-configuration is attached. -/
theorem serverless_branch (pg : PostgreSQL) (env : String) (h : env ≠ "") :
    ∃ r, (generatedResources pg env)[1]? = some r ∧
      lookupAttr r.extensions "resourceType" = some (.str alicloudDBInstance) ∧
      (if goContains pg.Category "serverless" then
        lookupAttr r.attributes "serverless_config" =
          some (.serverless [{ auto_pause := false, switch_force := false,
                               max_capacity := 8, min_capacity := 1 }]) ∧
        lookupAttr r.attributes "db_instance_storage_type" = some (.str "cloud_essd") ∧
        lookupAttr r.attributes "instance_charge_type" = some (.str "Serverless")
      else
        lookupAttr r.attributes "serverless_config" = none ∧
        lookupAttr r.attributes "db_instance_storage_type" = none ∧
        lookupAttr r.attributes "instance_charge_type" = none) := by
  unfold generatedResources GenerateAlicloudResources GenerateAlicloudResourcesWith
  simp only [show TerraformProviderRegion defaultAlicloudProviderCfg = "" from rfl,
    if_pos rfl]
  cases hpub : IsPublicAccessible pg.SecurityIPs <;>
    cases hsl : goContains pg.Category "serverless" <;>
      simp [h, hpub, hsl, GenerateTFRandomPassword, generateAlicloudDBInstance,
        generateAlicloudDBConnection, generateAlicloudRDSAccount, GenerateDBSecret,
        WrapTFResourceToKusionResource, lookupAttr]

/-- Witness for the C7 theorem at a concrete serverless configuration. -/
theorem serverless_branch_witness :
    ("cn-hangzhou" : String) ≠ "" ∧
    (∃ r, (generatedResources pgPub "cn-hangzhou")[1]? = some r ∧
      lookupAttr r.extensions "resourceType" = some (.str alicloudDBInstance) ∧
      (if goContains pgPub.Category "serverless" then
        lookupAttr r.attributes "serverless_config" =
          some (.serverless [{ auto_pause := false, switch_force := false,
                               max_capacity := 8, min_capacity := 1 }]) ∧
        lookupAttr r.attributes "db_instance_storage_type" = some (.str "cloud_essd") ∧
        lookupAttr r.attributes "instance_charge_type" = some (.str "Serverless")
      else
        lookupAttr r.attributes "serverless_config" = none ∧
        lookupAttr r.attributes "db_instance_storage_type" = none ∧
        lookupAttr r.attributes "instance_charge_type" = none)) := by
  exact ⟨by decide, serverless_branch pgPub "cn-hangzhou" (by decide)⟩

end AlicloudPG

namespace K8sMod

open Catalog

/-- A Deployment document in namespace `default`. -/
def docDeploy : YDoc :=
  [("apiVersion", .str "apps/v1"), ("kind", .str "Deployment"),
   ("metadata", .ymap [("name", "web"), ("namespace", "default")])]

/-- A Service document without a namespace. -/
def docService : YDoc :=
  [("apiVersion", .str "v1"), ("kind", .str "Service"),
   ("metadata", .ymap [("name", "web")])]

/-- A filesystem with two one-document manifest files. -/
def fsTwo : FSys :=
  { files := [("a.yaml", [docDeploy]), ("b.yaml", [docService])], dirs := [] }

/-- Membership after one `MergedPaths[path] = true` step. -/
theorem mem_mergedInsert (m : List String) (a p : String) :
    p ∈ mergedInsert m a ↔ p ∈ m ∨ p = a := by
  unfold mergedInsert
  split
  · rename_i h
    constructor
    · exact Or.inl
    · rintro (hp | rfl)
      · exact hp
      · exact h
  · simp

/-- `mergedInsert` preserves distinctness of the key list. -/
theorem nodup_mergedInsert (m : List String) (a : String) (h : m.Nodup) :
    (mergedInsert m a).Nodup := by
  unfold mergedInsert
  split
  · exact h
  · rename_i ha
    simp [List.nodup_append, h, ha]

/-- Membership after setting a whole path list in `MergedPaths`. -/
theorem mem_foldl_mergedInsert (ps : List String) (m : List String) (p : String) :
    p ∈ ps.foldl mergedInsert m ↔ p ∈ m ∨ p ∈ ps := by
  induction ps generalizing m with
  | nil => simp
  | cons a as ih =>
    rw [List.foldl_cons, ih, mem_mergedInsert]
    simp [List.mem_cons]
    tauto

/-- Setting a path list keeps the key list duplicate-free. -/
theorem nodup_foldl_mergedInsert (ps : List String) (m : List String)
    (h : m.Nodup) : (ps.foldl mergedInsert m).Nodup := by
  induction ps generalizing m with
  | nil => exact h
  | cons a as ih => exact ih _ (nodup_mergedInsert m a h)

/-- Setting a path list only appends keys, and only keys from the list
that were not already present. -/
theorem foldl_mergedInsert_append (ps : List String) (m : List String) :
    ∃ add, ps.foldl mergedInsert m = m ++ add ∧ ∀ p ∈ add, p ∈ ps ∧ p ∉ m := by
  induction ps generalizing m with
  | nil => exact ⟨[], by simp, by simp⟩
  | cons a as ih =>
    rw [List.foldl_cons]
    by_cases ha : a ∈ m
    · rw [show mergedInsert m a = m from if_pos ha]
      obtain ⟨add, heq, hmem⟩ := ih m
      exact ⟨add, heq, fun p hp =>
        ⟨List.mem_cons_of_mem _ (hmem p hp).1, (hmem p hp).2⟩⟩
    · rw [show mergedInsert m a = m ++ [a] from if_neg ha]
      obtain ⟨add, heq, hmem⟩ := ih (m ++ [a])
      refine ⟨a :: add, by rw [heq]; simp, fun p hp => ?_⟩
      rcases List.mem_cons.mp hp with rfl | hp'
      · exact ⟨List.mem_cons_self _ _, ha⟩
      · exact ⟨List.mem_cons_of_mem _ (hmem p hp').1,
          fun hm => (hmem p hp').2 (List.mem_append_left _ hm)⟩

/-- C4: starting from the fresh module state, the merged path set after
`CompleteConfig` is the developer-declared keys followed by the
platform-only keys, contains every developer path, adds platform paths
only when absent, and has no duplicates. -/
theorem merge_precedence (dev plat : List String) :
    ∃ d q,
      (CompleteConfig initialK8sManifest (some dev) (some plat)).MergedPaths = d ++ q ∧
      (∀ p, p ∈ d ↔ p ∈ dev) ∧
      (∀ p ∈ q, p ∈ plat ∧ p ∉ d) ∧
      (CompleteConfig initialK8sManifest (some dev) (some plat)).MergedPaths.Nodup ∧
      (∀ p, p ∈ (CompleteConfig initialK8sManifest (some dev) (some plat)).MergedPaths ↔
        p ∈ dev ∨ p ∈ plat) := by
  have hd : (CompleteConfig initialK8sManifest (some dev) (some plat)).MergedPaths
      = plat.foldl mergedInsert (dev.foldl mergedInsert []) := rfl
  obtain ⟨q, heq, hq⟩ := foldl_mergedInsert_append plat (dev.foldl mergedInsert [])
  refine ⟨dev.foldl mergedInsert [], q, by rw [hd, heq], ?_, hq, ?_, ?_⟩
  · intro p
    rw [mem_foldl_mergedInsert]
    simp
  · rw [hd]
    exact nodup_foldl_mergedInsert _ _ (nodup_foldl_mergedInsert _ _ List.nodup_nil)
  · intro p
    rw [hd, mem_foldl_mergedInsert, mem_foldl_mergedInsert]
    simp

/-- C3 (counterexample): a first `Generate` call with path `a.yaml` leaves
that path in the receiver's `MergedPaths`; a second call declaring only
`b.yaml` then produces a response also containing `a.yaml`'s document,
unlike the same call on a fresh instance — both runs shown with valid
Go-map iteration orders for their states. -/
theorem state_isolation_counterexample :
    (["a.yaml", "b.yaml"] : List String).Perm
      (CompleteConfig
        (Generate initialK8sManifest fsTwo
          { devConfig := some ["a.yaml"], platformConfig := none }
          ["a.yaml"] ["a.yaml"] "st").state
        (some ["b.yaml"]) none).MergedPaths ∧
    (["b.yaml"] : List String).Perm
      (CompleteConfig initialK8sManifest (some ["b.yaml"]) none).MergedPaths ∧
    (Generate
        (Generate initialK8sManifest fsTwo
          { devConfig := some ["a.yaml"], platformConfig := none }
          ["a.yaml"] ["a.yaml"] "st").state
        fsTwo { devConfig := some ["b.yaml"], platformConfig := none }
        ["a.yaml", "b.yaml"] ["a.yaml", "b.yaml"] "st").response ≠
      (Generate initialK8sManifest fsTwo
        { devConfig := some ["b.yaml"], platformConfig := none }
        ["b.yaml"] ["b.yaml"] "st").response := by
  refine ⟨by decide, by decide, by decide⟩

/-- C3 (amended): `CompleteConfig` never clears `MergedPaths` — the merged
set after a call is the receiver's existing keys (in place) plus the
newly declared developer and platform paths, so state persists across
calls on the same module instance. -/
theorem merged_paths_persist (k : K8sManifest) (dev plat : ConfigFragment) :
    (∃ add, (CompleteConfig k dev plat).MergedPaths = k.MergedPaths ++ add) ∧
    (∀ p, p ∈ (CompleteConfig k dev plat).MergedPaths ↔
      p ∈ k.MergedPaths ∨ p ∈ dev.getD [] ∨ p ∈ plat.getD []) := by
  cases dev with
  | none =>
    cases plat with
    | none => exact ⟨⟨[], by simp [CompleteConfig]⟩, by simp [CompleteConfig]⟩
    | some ps =>
      obtain ⟨add, heq, _⟩ := foldl_mergedInsert_append ps k.MergedPaths
      refine ⟨⟨add, heq⟩, fun p => ?_⟩
      show p ∈ ps.foldl mergedInsert k.MergedPaths ↔ _
      rw [mem_foldl_mergedInsert]
      simp
  | some ds =>
    cases plat with
    | none =>
      obtain ⟨add, heq, _⟩ := foldl_mergedInsert_append ds k.MergedPaths
      refine ⟨⟨add, heq⟩, fun p => ?_⟩
      show p ∈ ds.foldl mergedInsert k.MergedPaths ↔ _
      rw [mem_foldl_mergedInsert]
      simp
    | some ps =>
      obtain ⟨add1, heq1, _⟩ := foldl_mergedInsert_append ds k.MergedPaths
      obtain ⟨add2, heq2, _⟩ :=
        foldl_mergedInsert_append ps (ds.foldl mergedInsert k.MergedPaths)
      refine ⟨⟨add1 ++ add2, ?_⟩, fun p => ?_⟩
      · show ps.foldl mergedInsert (ds.foldl mergedInsert k.MergedPaths) = _
        rw [heq2, heq1, List.append_assoc]
      · show p ∈ ps.foldl mergedInsert (ds.foldl mergedInsert k.MergedPaths) ↔ _
        rw [mem_foldl_mergedInsert, mem_foldl_mergedInsert]
        simp
        tauto

/-- C10: `Generate` never runs `ValidateConfig` — with parsing configs
that declare no paths at all it succeeds with an empty resource list,
while `ValidateConfig` would have rejected the merged (empty) path set. -/
theorem generate_skips_validation :
    (∀ (fs : FSys) (stack : String) (dev plat : ConfigFragment),
      (dev = none ∨ dev = some []) → (plat = none ∨ plat = some []) →
      Generate initialK8sManifest fs { devConfig := dev, platformConfig := plat }
        [] [] stack =
        { state := CompleteConfig initialK8sManifest dev plat,
          response := some [], err := none }) ∧
    ValidateConfig (CompleteConfig initialK8sManifest (some []) (some [])) =
      some "k8s manifest paths should not be empty" := by
  constructor
  · rintro fs stack dev plat (rfl | rfl) (rfl | rfl) <;> rfl
  · rfl

/-- Witness for the C10 theorem on a concrete filesystem and empty
declared path lists. -/
theorem generate_skips_validation_witness :
    Generate initialK8sManifest fsTwo
      { devConfig := some [], platformConfig := some [] } [] [] "stacktrace" =
      { state := CompleteConfig initialK8sManifest (some []) (some []),
        response := some [], err := none } :=
  generate_skips_validation.1 fsTwo "stacktrace" (some []) (some [])
    (Or.inr rfl) (Or.inr rfl)

/-- C9: a panic in the conversion loop is recovered: the response is nil
and the returned error carries the panic message, the stack and the
marshalled request; and a response is only ever returned with a nil
error (no partial collection alongside an error). -/
theorem panic_recovered (k : K8sManifest) (fs : FSys) (req : GeneratorRequest)
    (pord ford : List String) (stack : String) :
    (∀ fmap msg, collectFiles fs pord = .ok fmap →
      convertAll fmap ford = .error msg →
      Generate k fs req pord ford stack =
        { state := CompleteConfig k req.devConfig req.platformConfig,
          response := none,
          err := some (.panicRecovered msg stack (marshalRequest req)) }) ∧
    (∀ rs, (Generate k fs req pord ford stack).response = some rs →
      (Generate k fs req pord ford stack).err = none) := by
  constructor
  · intro fmap msg hc hv
    simp [Generate, hc, hv]
  · intro rs h
    cases hc : collectFiles fs pord with
    | error e => simp [Generate, hc] at h
    | ok fmap =>
      cases hv : convertAll fmap ford with
      | error msg => simp [Generate, hc, hv] at h
      | ok rs' => simp [Generate, hc, hv]

/-- A file whose single document has no `apiVersion`, making the
conversion's type assertion panic. -/
def fsBad : FSys :=
  { files := [("p.yaml", [[("kind", YVal.str "X")]])], dirs := [] }

/-- The request used in the C9 witness. -/
def reqBad : GeneratorRequest :=
  { devConfig := some ["p.yaml"], platformConfig := none }

/-- Witness for the C9 theorem: a concrete panicking document yields a
nil response and a recovered error carrying the stack and the request. -/
theorem panic_recovered_witness :
    Generate initialK8sManifest fsBad reqBad ["p.yaml"] ["p.yaml"] "STACK" =
      { state := CompleteConfig initialK8sManifest reqBad.devConfig
          reqBad.platformConfig,
        response := none,
        err := some (.panicRecovered
          "interface conversion: apiVersion is not a string" "STACK"
          (marshalRequest reqBad)) } :=
  (panic_recovered initialK8sManifest fsBad reqBad ["p.yaml"] ["p.yaml"] "STACK").1
    [("p.yaml", [[("kind", YVal.str "X")]])]
    "interface conversion: apiVersion is not a string" rfl rfl

/-- Whether one document converts without a panic. -/
def convOk (d : YDoc) : Bool :=
  match convertDoc d with
  | .ok _ => true
  | .error _ => false

/-- The resource a panic-free document converts to. -/
def okConvert (d : YDoc) : Resource :=
  match convertDoc d with
  | .ok r => r
  | .error _ => { id := "", type := "", attributes := [], extensions := [] }

/-- C8: a well-formed document converts to a resource whose id is
`apiVersion:kind:name` when the namespace is absent or empty and
`apiVersion:kind:namespace:name` otherwise; and conversion emits exactly
one resource per document in order (colliding identities are not
deduplicated). -/
theorem manifest_identity_and_collision :
    (∀ (doc : YDoc) (a kd n : String) (md : List (String × String)),
      List.lookup "apiVersion" doc = some (.str a) →
      List.lookup "kind" doc = some (.str kd) →
      List.lookup "metadata" doc = some (.ymap md) →
      List.lookup "name" md = some n →
      convertDoc doc = .ok
        { id := if (List.lookup "namespace" md).getD "" = ""
                then a ++ ":" ++ kd ++ ":" ++ n
                else a ++ ":" ++ kd ++ ":" ++ (List.lookup "namespace" md).getD "" ++ ":" ++ n,
          type := "Kubernetes",
          attributes := doc.map (fun e => (e.1, yvalToAttr e.2)),
          extensions := [] }) ∧
    (∀ ds : List YDoc, (∀ d ∈ ds, convOk d = true) →
      convertDocs ds = .ok (ds.map okConvert)) := by
  constructor
  · intro doc a kd n md h1 h2 h3 h4
    unfold convertDoc
    simp only [h1, h2, h3, h4]
  · intro ds h
    induction ds with
    | nil => rfl
    | cons d rest ih =>
      have hd : convOk d = true := h d (by simp)
      unfold convOk at hd
      cases hcv : convertDoc d with
      | error e => rw [hcv] at hd; simp at hd
      | ok r =>
        unfold convertDocs
        rw [hcv, ih fun x hx => h x (by simp [hx])]
        simp [okConvert, hcv]

/-- A ConfigMap document. -/
def docCM : YDoc :=
  [("apiVersion", .str "v1"), ("kind", .str "ConfigMap"),
   ("metadata", .ymap [("name", "cm")])]

/-- A different document with the same identity coordinates. -/
def docCM2 : YDoc :=
  [("apiVersion", .str "v1"), ("kind", .str "ConfigMap"),
   ("metadata", .ymap [("name", "cm")]), ("data", .ymap [("k", "v")])]

/-- Witness for the C8 theorem: two distinct documents with colliding
identity are both emitted, as distinct resources sharing the same id. -/
theorem manifest_identity_and_collision_witness :
    convertDocs [docCM, docCM2] = .ok ([docCM, docCM2].map okConvert) ∧
    ([docCM, docCM2].map okConvert).length = 2 ∧
    (okConvert docCM).id = (okConvert docCM2).id ∧
    okConvert docCM ≠ okConvert docCM2 :=
  ⟨manifest_identity_and_collision.2 [docCM, docCM2] (by decide),
   by decide, by decide, by decide⟩

/-- Shared helper: when every document converts without a panic, the
conversion loop returns exactly one resource per document, in order. -/
theorem convertDocs_eq_map (ds : List YDoc) (h : ∀ d ∈ ds, convOk d = true) :
    convertDocs ds = .ok (ds.map okConvert) := by
  induction ds with
  | nil => rfl
  | cons d rest ih =>
    have hd : convOk d = true := h d (by simp)
    unfold convOk at hd
    cases hcv : convertDoc d with
    | error e => rw [hcv] at hd; simp at hd
    | ok r =>
      unfold convertDocs
      rw [hcv, ih fun x hx => h x (by simp [hx])]
      simp [okConvert, hcv]

/-- The key list of the `manifestYAMLFiles` accumulator. -/
def keysOf (m : FileMap) : List String :=
  m.map Prod.fst

/-- All accumulated documents of the accumulator, in entry order. -/
def flattenDocs (m : FileMap) : List YDoc :=
  m.flatMap (fun e => e.2)

/-- The non-empty decoded documents of one regular file. -/
def fileDocs (fs : FSys) (p : String) : List YDoc :=
  ((fs.files.lookup p).getD []).filter (fun d => !(List.isEmpty d))

/-- The documents one merged path contributes: its own documents for a
regular file, the documents of every recognised file under it for a
directory. -/
def contribDocs (fs : FSys) (p : String) : List YDoc :=
  match fs.dirs.lookup p with
  | some entries =>
    (entries.filter (fun fp => !(ignoreFile fp FileExtensions))).flatMap (fileDocs fs)
  | none => fileDocs fs p

/-- `updateAdd` appends the new documents, up to reordering of the
per-file groups. -/
theorem flattenDocs_updateAdd (m : FileMap) (k : String) (ds : List YDoc) :
    (flattenDocs (updateAdd m k ds)).Perm (flattenDocs m ++ ds) := by
  induction m with
  | nil => simp [updateAdd, flattenDocs]
  | cons e rest ih =>
    obtain ⟨k', v⟩ := e
    by_cases hk : k' = k
    · subst hk
      show (flattenDocs (if k' = k' then (k', v ++ ds) :: rest
              else (k', v) :: updateAdd rest k' ds)).Perm
          (flattenDocs ((k', v) :: rest) ++ ds)
      rw [if_pos rfl]
      show ((v ++ ds) ++ flattenDocs rest).Perm ((v ++ flattenDocs rest) ++ ds)
      rw [List.append_assoc, List.append_assoc]
      exact List.perm_append_comm.append_left v
    · show (flattenDocs (if k' = k then (k', v ++ ds) :: rest
              else (k', v) :: updateAdd rest k ds)).Perm
          (flattenDocs ((k', v) :: rest) ++ ds)
      rw [if_neg hk]
      show (v ++ flattenDocs (updateAdd rest k ds)).Perm
          ((v ++ flattenDocs rest) ++ ds)
      rw [List.append_assoc]
      exact ih.append_left v

/-- `updateAdd` either leaves the key list unchanged or appends the new
key at the end. -/
theorem keysOf_updateAdd (m : FileMap) (k : String) (ds : List YDoc) :
    keysOf (updateAdd m k ds) =
      if k ∈ keysOf m then keysOf m else keysOf m ++ [k] := by
  induction m with
  | nil => simp [updateAdd, keysOf]
  | cons e rest ih =>
    obtain ⟨k', v⟩ := e
    by_cases hk : k' = k
    · subst hk
      simp [updateAdd, keysOf]
    · have hne : k ≠ k' := fun h => hk h.symm
      by_cases hm : k ∈ keysOf rest
      · have hmc : k ∈ keysOf (((k', v) :: rest : FileMap)) := by
          simp [keysOf] at hm ⊢
          exact Or.inr hm
        simp only [updateAdd, if_neg hk, keysOf, List.map_cons] at *
        rw [ih, if_pos hm, if_pos hmc]
      · have hmc : k ∉ keysOf (((k', v) :: rest : FileMap)) := by
          simp [keysOf] at hm ⊢
          exact ⟨hne, hm⟩
        simp only [updateAdd, if_neg hk, keysOf, List.map_cons] at *
        rw [ih, if_neg hm, if_neg hmc]
        rfl

/-- `updateAdd` keeps the key list duplicate-free. -/
theorem nodup_keysOf_updateAdd (m : FileMap) (k : String) (ds : List YDoc)
    (h : (keysOf m).Nodup) : (keysOf (updateAdd m k ds)).Nodup := by
  rw [keysOf_updateAdd]
  split
  · exact h
  · rename_i hk
    simp [List.nodup_append, h, hk]

/-- What `appendManifest` does when it succeeds: the accumulated
documents gain exactly the file's non-empty documents (up to group
reordering) and the key list stays duplicate-free. -/
theorem appendManifest_ok (fs : FSys) (p : String) (m m' : FileMap)
    (h : appendManifest fs p m = .ok m') :
    (flattenDocs m').Perm (flattenDocs m ++ fileDocs fs p) ∧
    ((keysOf m).Nodup → (keysOf m').Nodup) := by
  unfold appendManifest at h
  cases hf : fs.files.lookup p with
  | none => rw [hf] at h; exact absurd h (by simp)
  | some docs =>
    rw [hf] at h
    simp only [Except.ok.injEq] at h
    have hfd : fileDocs fs p = docs.filter (fun d => !(List.isEmpty d)) := by
      unfold fileDocs
      rw [hf]
      rfl
    by_cases he : (docs.filter (fun d => !(List.isEmpty d))).isEmpty
    · rw [if_pos he] at h
      subst h
      constructor
      · rw [hfd, List.isEmpty_iff.mp he]
        simp
      · exact id
    · rw [if_neg he] at h
      subst h
      rw [hfd]
      exact ⟨flattenDocs_updateAdd m p _, nodup_keysOf_updateAdd m p _⟩

/-- Pointwise-equal functions give equal `flatMap`s. -/
theorem flatMap_congr_mem {α β : Type} (l : List α) (f g : α → List β)
    (h : ∀ x ∈ l, f x = g x) : l.flatMap f = l.flatMap g := by
  induction l with
  | nil => rfl
  | cons a as ih =>
    simp only [List.flatMap_cons, h a (by simp),
      ih fun x hx => h x (by simp [hx])]

/-- What one directory walk contributes to the accumulator. -/
theorem walk_fold (fs : FSys) (entries : List String) :
    ∀ m m' : FileMap,
      entries.foldlM
        (fun acc fp =>
          if ignoreFile fp FileExtensions then .ok acc
          else appendManifest fs fp acc) m = .ok m' →
      (flattenDocs m').Perm
        (flattenDocs m ++
          (entries.filter (fun fp => !(ignoreFile fp FileExtensions))).flatMap
            (fileDocs fs)) ∧
      ((keysOf m).Nodup → (keysOf m').Nodup) := by
  induction entries with
  | nil =>
    intro m m' h
    simp only [List.foldlM_nil] at h
    cases h
    simp
  | cons e es ih =>
    intro m m' h
    rw [List.foldlM_cons] at h
    by_cases hig : ignoreFile e FileExtensions
    · rw [if_pos hig] at h
      obtain ⟨hp, hn⟩ := ih m m' h
      refine ⟨?_, hn⟩
      simpa [hig] using hp
    · rw [if_neg hig] at h
      cases ha : appendManifest fs e m with
      | error er =>
        rw [ha] at h
        exact absurd h (by simp [Bind.bind, Except.bind])
      | ok m1 =>
        rw [ha] at h
        obtain ⟨hp1, hn1⟩ := appendManifest_ok fs e m m1 ha
        obtain ⟨hp2, hn2⟩ := ih m1 m' h
        refine ⟨?_, fun hm => hn2 (hn1 hm)⟩
        have h3 : ((e :: es).filter (fun fp => !(ignoreFile fp FileExtensions))).flatMap
            (fileDocs fs) =
            fileDocs fs e ++
              (es.filter (fun fp => !(ignoreFile fp FileExtensions))).flatMap
                (fileDocs fs) := by
          simp [hig]
        rw [h3, ← List.append_assoc]
        exact hp2.trans (hp1.append_right _)

/-- What one merged path contributes to the accumulator. -/
theorem processPath_ok (fs : FSys) (m : FileMap) (p : String) (m' : FileMap)
    (h : processPath fs m p = .ok m') :
    (flattenDocs m').Perm (flattenDocs m ++ contribDocs fs p) ∧
    ((keysOf m).Nodup → (keysOf m').Nodup) := by
  unfold processPath at h
  unfold contribDocs
  cases hd : fs.dirs.lookup p with
  | some entries =>
    rw [hd] at h
    exact walk_fold fs entries m m' h
  | none =>
    rw [hd] at h
    cases hf : fs.files.lookup p with
    | some docs =>
      rw [hf] at h
      exact appendManifest_ok fs p m m' h
    | none =>
      rw [hf] at h
      exact absurd h (by simp)

/-- What the whole path loop accumulates: all contributions of the
visited paths, in visit order, up to reordering of the per-file groups;
and the accumulator's key list stays duplicate-free. -/
theorem collect_fold (fs : FSys) (pord : List String) :
    ∀ m m' : FileMap, pord.foldlM (processPath fs) m = .ok m' →
      (flattenDocs m').Perm (flattenDocs m ++ pord.flatMap (contribDocs fs)) ∧
      ((keysOf m).Nodup → (keysOf m').Nodup) := by
  induction pord with
  | nil =>
    intro m m' h
    simp only [List.foldlM_nil] at h
    cases h
    simp
  | cons p ps ih =>
    intro m m' h
    rw [List.foldlM_cons] at h
    cases hp : processPath fs m p with
    | error e =>
      rw [hp] at h
      exact absurd h (by simp [Bind.bind, Except.bind])
    | ok m1 =>
      rw [hp] at h
      obtain ⟨q1, n1⟩ := processPath_ok fs m p m1 hp
      obtain ⟨q2, n2⟩ := ih m1 m' h
      refine ⟨?_, fun hm => n2 (n1 hm)⟩
      rw [List.flatMap_cons, ← List.append_assoc]
      exact q2.trans (q1.append_right _)

/-- Iterating the accumulator's own (duplicate-free) key list yields the
accumulated documents in entry order. -/
theorem docsInOrder_keysOf (m : FileMap) (h : (keysOf m).Nodup) :
    docsInOrder m (keysOf m) = flattenDocs m := by
  induction m with
  | nil => rfl
  | cons e rest ih =>
    obtain ⟨k, v⟩ := e
    obtain ⟨hk, hrest⟩ : k ∉ keysOf rest ∧ (keysOf rest).Nodup := by
      simpa [keysOf, List.nodup_cons] using h
    have h1 : List.lookup k (((k, v) :: rest : FileMap)) = some v := by
      simp [List.lookup]
    have hcg : (keysOf rest).flatMap
          (fun x => (List.lookup x (((k, v) :: rest : FileMap))).getD []) =
        (keysOf rest).flatMap (fun x => (List.lookup x rest).getD []) := by
      refine flatMap_congr_mem _ _ _ fun x hx => ?_
      have hxk : x ≠ k := fun hxk => hk (hxk ▸ hx)
      simp [List.lookup, beq_eq_false_iff_ne.mpr hxk]
    show (List.lookup k (((k, v) :: rest : FileMap))).getD [] ++
        (keysOf rest).flatMap
          (fun x => (List.lookup x (((k, v) :: rest : FileMap))).getD []) =
      v ++ flattenDocs rest
    rw [h1, hcg]
    show v ++ docsInOrder rest (keysOf rest) = v ++ flattenDocs rest
    rw [ih hrest]

/-- The request used in the C2 theorems. -/
def reqTwo : GeneratorRequest :=
  { devConfig := some ["a.yaml", "b.yaml"], platformConfig := none }

/-- The accumulator both C2 runs build from `fsTwo`. -/
def fmapTwo : FileMap :=
  [("a.yaml", [docDeploy]), ("b.yaml", [docService])]

/-- C2 (counterexample): two runs of `Generate` over the same unchanged
path set and files — differing only in the Go map iteration order of the
accumulated per-file groups, both orders being permutations of the
accumulator's key set — return differently ordered resource sequences, so
the output order is neither run-stable nor file order. -/
theorem flatten_determinism_counterexample :
    (["a.yaml", "b.yaml"] : List String).Perm
      (CompleteConfig initialK8sManifest reqTwo.devConfig
        reqTwo.platformConfig).MergedPaths ∧
    collectFiles fsTwo ["a.yaml", "b.yaml"] = .ok fmapTwo ∧
    (["a.yaml", "b.yaml"] : List String).Perm (keysOf fmapTwo) ∧
    (["b.yaml", "a.yaml"] : List String).Perm (keysOf fmapTwo) ∧
    (Generate initialK8sManifest fsTwo reqTwo
        ["a.yaml", "b.yaml"] ["a.yaml", "b.yaml"] "st").response ≠
      (Generate initialK8sManifest fsTwo reqTwo
        ["a.yaml", "b.yaml"] ["b.yaml", "a.yaml"] "st").response := by
  refine ⟨by decide, rfl, by decide, by decide, by decide⟩

/-- C2 (amended): any two runs of `Generate` over the same module state,
request and unchanged files — each with valid Go map iteration orders
(permutations of the merged path set and of its accumulator's key set) —
return resource sequences that are permutations of each other: document
order is preserved inside each file's group, but the groups are emitted
in map iteration order rather than a fixed file order. -/
theorem flatten_order_amended
    (fs : FSys) (k : K8sManifest) (req : GeneratorRequest) (stack : String)
    (pord₁ pord₂ ford₁ ford₂ : List String) (fmap₁ fmap₂ : FileMap)
    (hp₁ : pord₁.Perm (CompleteConfig k req.devConfig
      req.platformConfig).MergedPaths)
    (hp₂ : pord₂.Perm (CompleteConfig k req.devConfig
      req.platformConfig).MergedPaths)
    (hc₁ : collectFiles fs pord₁ = .ok fmap₁)
    (hc₂ : collectFiles fs pord₂ = .ok fmap₂)
    (hf₁ : ford₁.Perm (keysOf fmap₁))
    (hf₂ : ford₂.Perm (keysOf fmap₂))
    (hok : ∀ d ∈ docsInOrder fmap₁ ford₁, convOk d = true) :
    ∃ rs₁ rs₂,
      (Generate k fs req pord₁ ford₁ stack).response = some rs₁ ∧
      (Generate k fs req pord₂ ford₂ stack).response = some rs₂ ∧
      rs₁.Perm rs₂ := by
  have hn₁ : (keysOf fmap₁).Nodup :=
    (collect_fold fs pord₁ [] fmap₁ hc₁).2 (by simp [keysOf])
  have hn₂ : (keysOf fmap₂).Nodup :=
    (collect_fold fs pord₂ [] fmap₂ hc₂).2 (by simp [keysOf])
  have hq₁ : (flattenDocs fmap₁).Perm (pord₁.flatMap (contribDocs fs)) := by
    simpa [flattenDocs] using (collect_fold fs pord₁ [] fmap₁ hc₁).1
  have hq₂ : (flattenDocs fmap₂).Perm (pord₂.flatMap (contribDocs fs)) := by
    simpa [flattenDocs] using (collect_fold fs pord₂ [] fmap₂ hc₂).1
  have hd₁ : (docsInOrder fmap₁ ford₁).Perm (flattenDocs fmap₁) := by
    have h := hf₁.flatMap_right
      (fun key => (List.lookup key fmap₁).getD ([] : List YDoc))
    rw [show (keysOf fmap₁).flatMap
        (fun key => (List.lookup key fmap₁).getD ([] : List YDoc)) =
        flattenDocs fmap₁ from docsInOrder_keysOf fmap₁ hn₁] at h
    exact h
  have hd₂ : (docsInOrder fmap₂ ford₂).Perm (flattenDocs fmap₂) := by
    have h := hf₂.flatMap_right
      (fun key => (List.lookup key fmap₂).getD ([] : List YDoc))
    rw [show (keysOf fmap₂).flatMap
        (fun key => (List.lookup key fmap₂).getD ([] : List YDoc)) =
        flattenDocs fmap₂ from docsInOrder_keysOf fmap₂ hn₂] at h
    exact h
  have hpp : (pord₁.flatMap (contribDocs fs)).Perm
      (pord₂.flatMap (contribDocs fs)) :=
    (hp₁.trans hp₂.symm).flatMap_right _
  have htotal : (docsInOrder fmap₁ ford₁).Perm (docsInOrder fmap₂ ford₂) :=
    hd₁.trans (hq₁.trans (hpp.trans (hq₂.symm.trans hd₂.symm)))
  have hok₂ : ∀ d ∈ docsInOrder fmap₂ ford₂, convOk d = true :=
    fun d hd => hok d (htotal.mem_iff.mpr hd)
  have hcv₁ : convertAll fmap₁ ford₁ =
      .ok ((docsInOrder fmap₁ ford₁).map okConvert) :=
    convertDocs_eq_map _ hok
  have hcv₂ : convertAll fmap₂ ford₂ =
      .ok ((docsInOrder fmap₂ ford₂).map okConvert) :=
    convertDocs_eq_map _ hok₂
  refine ⟨(docsInOrder fmap₁ ford₁).map okConvert,
    (docsInOrder fmap₂ ford₂).map okConvert, ?_, ?_, htotal.map okConvert⟩
  · simp [Generate, hc₁, hcv₁]
  · simp [Generate, hc₂, hcv₂]

/-- Witness for the C2 amended theorem: the two concrete runs of the
counterexample produce permutation-equal resource lists. -/
theorem flatten_order_amended_witness :
    ∃ rs₁ rs₂,
      (Generate initialK8sManifest fsTwo reqTwo
        ["a.yaml", "b.yaml"] ["a.yaml", "b.yaml"] "st").response = some rs₁ ∧
      (Generate initialK8sManifest fsTwo reqTwo
        ["a.yaml", "b.yaml"] ["b.yaml", "a.yaml"] "st").response = some rs₂ ∧
      rs₁.Perm rs₂ :=
  flatten_order_amended fsTwo initialK8sManifest reqTwo "st"
    ["a.yaml", "b.yaml"] ["a.yaml", "b.yaml"]
    ["a.yaml", "b.yaml"] ["b.yaml", "a.yaml"] fmapTwo fmapTwo
    (by decide) (by decide) rfl rfl (by decide) (by decide) (by decide)

end K8sMod
